import Mathlib

/-!
Shallow embedding of the metrics persistence and aggregation layer and the
content workflow manager of the `rialo-marketing` repository
(`src/database_manager.py`, `src/supabase_content.py`), together with
theorems settling the specification claims about them.

Database tables are modelled as Lean lists of records; SQL queries become
list filters, sorts and truncations; Python dictionaries produced by the
Notion-compatibility shim become a small inductive type of Python values.
Integer metric columns are declared with `default=0` in the schema and every
ingestion path normalises them with `or 0` before the upsert, so they are
modelled as `Nat` rather than `Option Nat`; genuinely nullable text and
timestamp columns are modelled as `Option`.
-/

/-- Update the first element of a list satisfying `q` by `f`, leaving the
rest unchanged.  This models an SQLAlchemy `query.filter(...).first()`
followed by attribute assignment and `commit`. -/
def updateFirst (q : α → Bool) (f : α → α) : List α → List α
  | [] => []
  | x :: xs => if q x then f x :: xs else x :: updateFirst q f xs

/-- Insert `a` into `l` before the first element `b` with `le a b`.
Models one step of an ORDER BY sort. -/
def orderedInsertB (le : α → α → Bool) (a : α) : List α → List α
  | [] => [a]
  | b :: l => if le a b then a :: b :: l else b :: orderedInsertB le a l

/-- Insertion sort with a boolean comparator; models a SQL `ORDER BY` or a
pandas `sort_values` (neither of which guarantees a stable order). -/
def insertionSortB (le : α → α → Bool) : List α → List α
  | [] => []
  | b :: l => orderedInsertB le b (insertionSortB le l)

/-! ### Analytics data model (`src/database_manager.py`) -/

/-- Row of the `linkedin_posts` table (class `LinkedInPost`).  `id` is the
autoincrement surrogate key; `post_id` carries the unique external id. -/
structure LinkedInPost where
  id : Nat
  post_id : String
  url : Option String
  content : Option String
  date_posted : Option Int
  views : Nat
  likes : Nat
  comments : Nat
  reposts : Nat
  scraped_at : Int
deriving DecidableEq

/-- Row of the `twitter_posts` table (class `TwitterPost`). -/
structure TwitterPost where
  id : Nat
  tweet_id : String
  url : Option String
  content : Option String
  date_posted : Option Int
  views : Nat
  likes : Nat
  retweets : Nat
  replies : Nat
  quotes : Nat
  scraped_at : Int
deriving DecidableEq

/-- The `post_data` dictionary passed to `upsert_linkedin_post`: every field
except the mandatory external id may be absent or `None`. -/
structure LinkedInPostData where
  post_id : String
  url : Option String := none
  content : Option String := none
  date_posted : Option Int := none
  views : Option Nat := none
  likes : Option Nat := none
  comments : Option Nat := none
  reposts : Option Nat := none
deriving DecidableEq

/-- The `post_data` dictionary passed to `upsert_twitter_post`. -/
structure TwitterPostData where
  tweet_id : String
  url : Option String := none
  content : Option String := none
  date_posted : Option Int := none
  views : Option Nat := none
  likes : Option Nat := none
  retweets : Option Nat := none
  replies : Option Nat := none
  quotes : Option Nat := none
deriving DecidableEq

/-- The two post tables a `DatabaseManager` session operates on. -/
structure Database where
  linkedin_posts : List LinkedInPost
  twitter_posts : List TwitterPost
deriving DecidableEq

/-- Next value of the autoincrement primary key column. -/
def freshIdL (posts : List LinkedInPost) : Nat :=
  posts.foldr (fun p m => max p.id m) 0 + 1

/-- Next value of the autoincrement primary key column. -/
def freshIdT (posts : List TwitterPost) : Nat :=
  posts.foldr (fun p m => max p.id m) 0 + 1

/-- The update branch of `upsert_linkedin_post`: `for key, value in
post_data.items(): if hasattr(existing, key) and value is not None:
setattr(existing, key, value)` followed by `existing.scraped_at =
datetime.utcnow()`.  Fields that are `None` in the call keep their stored
value; the non-null ones overwrite it. -/
def applyLinkedInUpdate (p : LinkedInPost) (d : LinkedInPostData) (now : Int) :
    LinkedInPost :=
  { id := p.id
    post_id := d.post_id
    url := d.url.or p.url
    content := d.content.or p.content
    date_posted := d.date_posted.or p.date_posted
    views := d.views.getD p.views
    likes := d.likes.getD p.likes
    comments := d.comments.getD p.comments
    reposts := d.reposts.getD p.reposts
    scraped_at := now }

/-- The update branch of `upsert_twitter_post`. -/
def applyTwitterUpdate (p : TwitterPost) (d : TwitterPostData) (now : Int) :
    TwitterPost :=
  { id := p.id
    tweet_id := d.tweet_id
    url := d.url.or p.url
    content := d.content.or p.content
    date_posted := d.date_posted.or p.date_posted
    views := d.views.getD p.views
    likes := d.likes.getD p.likes
    retweets := d.retweets.getD p.retweets
    replies := d.replies.getD p.replies
    quotes := d.quotes.getD p.quotes
    scraped_at := now }

/-- The insert branch `LinkedInPost(**post_data)`: metric columns fall back
to their schema `default=0`, `scraped_at` to its `default=datetime.utcnow`,
and the primary key is assigned by the autoincrement sequence. -/
def newLinkedInPost (posts : List LinkedInPost) (d : LinkedInPostData)
    (now : Int) : LinkedInPost :=
  { id := freshIdL posts
    post_id := d.post_id
    url := d.url
    content := d.content
    date_posted := d.date_posted
    views := d.views.getD 0
    likes := d.likes.getD 0
    comments := d.comments.getD 0
    reposts := d.reposts.getD 0
    scraped_at := now }

/-- The insert branch `TwitterPost(**post_data)`. -/
def newTwitterPost (posts : List TwitterPost) (d : TwitterPostData)
    (now : Int) : TwitterPost :=
  { id := freshIdT posts
    tweet_id := d.tweet_id
    url := d.url
    content := d.content
    date_posted := d.date_posted
    views := d.views.getD 0
    likes := d.likes.getD 0
    retweets := d.retweets.getD 0
    replies := d.replies.getD 0
    quotes := d.quotes.getD 0
    scraped_at := now }

/-- `DatabaseManager.upsert_linkedin_post`: look up the row whose `post_id`
equals `post_data["post_id"]`; update it in place if found, insert a new row
otherwise. -/
def upsert_linkedin_post (posts : List LinkedInPost) (d : LinkedInPostData)
    (now : Int) : List LinkedInPost :=
  if posts.any (fun p => p.post_id == d.post_id) then
    updateFirst (fun p => p.post_id == d.post_id)
      (fun p => applyLinkedInUpdate p d now) posts
  else
    posts ++ [newLinkedInPost posts d now]

/-- `DatabaseManager.upsert_twitter_post`. -/
def upsert_twitter_post (posts : List TwitterPost) (d : TwitterPostData)
    (now : Int) : List TwitterPost :=
  if posts.any (fun p => p.tweet_id == d.tweet_id) then
    updateFirst (fun p => p.tweet_id == d.tweet_id)
      (fun p => applyTwitterUpdate p d now) posts
  else
    posts ++ [newTwitterPost posts d now]

/-- Number of rows of the LinkedIn table carrying a given external id. -/
def countIdL (posts : List LinkedInPost) (i : String) : Nat :=
  posts.countP (fun p => p.post_id == i)

/-- Number of rows of the Twitter table carrying a given external id. -/
def countIdT (posts : List TwitterPost) (i : String) : Nat :=
  posts.countP (fun p => p.tweet_id == i)

/-! ### Leaderboard queries -/

/-- Descending comparator for a `Nat` column (`col.desc()`). -/
def natDescLE (a b : Nat) : Bool := decide (b ≤ a)

/-- Descending comparator for an `Int` column. -/
def intDescLE (a b : Int) : Bool := decide (b ≤ a)

/-- Lexicographic order on character lists, by code point. -/
def listCharLT : List Char → List Char → Bool
  | [], [] => false
  | [], _ :: _ => true
  | _ :: _, [] => false
  | a :: as, b :: bs =>
    if a < b then true else if b < a then false else listCharLT as bs

/-- Lexicographic order on strings, by code point. -/
def strLTB (a b : String) : Bool := listCharLT a.toList b.toList

/-- Descending comparator for a string column. -/
def strDescLE (a b : String) : Bool := !strLTB a b

/-- Descending comparator for a nullable column: PostgreSQL sorts `NULL`
first under `ORDER BY col DESC`. -/
def optDescLE (le : α → α → Bool) : Option α → Option α → Bool
  | none, _ => true
  | some _, none => false
  | some a, some b => le a b

/-- The column names `getattr` can resolve on the `LinkedInPost` model. -/
def linkedinColumnNames : List String :=
  ["id", "post_id", "url", "content", "date_posted",
   "views", "likes", "comments", "reposts", "scraped_at"]

/-- The column names `getattr` can resolve on the `TwitterPost` model. -/
def twitterColumnNames : List String :=
  ["id", "tweet_id", "url", "content", "date_posted",
   "views", "likes", "retweets", "replies", "quotes", "scraped_at"]

/-- The comparator of `.order_by(order_col.desc())` for the metric names on
which `get_top_linkedin_posts` succeeds: a declared column orders by that
column, and a name that is no attribute of the model class at all makes
`getattr(LinkedInPost, metric, LinkedInPost.views)` return its default, so
the fallthrough case orders by `views`.  A class attribute that is not a
column (such as `metadata` or `__tablename__`) resolves via `getattr` and
then raises `AttributeError` on `.desc()`; that error path is not decided
here but in `get_top_linkedin_posts_checked`, which guards this comparator
behind the class-attribute set. -/
def linkedinOrderDesc (metric : String) (p q : LinkedInPost) : Bool :=
  match metric with
  | "id" => natDescLE p.id q.id
  | "post_id" => strDescLE p.post_id q.post_id
  | "url" => optDescLE strDescLE p.url q.url
  | "content" => optDescLE strDescLE p.content q.content
  | "date_posted" => optDescLE intDescLE p.date_posted q.date_posted
  | "views" => natDescLE p.views q.views
  | "likes" => natDescLE p.likes q.likes
  | "comments" => natDescLE p.comments q.comments
  | "reposts" => natDescLE p.reposts q.reposts
  | "scraped_at" => intDescLE p.scraped_at q.scraped_at
  | _ => natDescLE p.views q.views

/-- The comparator for `get_top_twitter_posts`, scoped exactly as
`linkedinOrderDesc`: columns and genuinely absent names only; the raise on
non-column class attributes is handled by
`get_top_twitter_posts_checked`. -/
def twitterOrderDesc (metric : String) (p q : TwitterPost) : Bool :=
  match metric with
  | "id" => natDescLE p.id q.id
  | "tweet_id" => strDescLE p.tweet_id q.tweet_id
  | "url" => optDescLE strDescLE p.url q.url
  | "content" => optDescLE strDescLE p.content q.content
  | "date_posted" => optDescLE intDescLE p.date_posted q.date_posted
  | "views" => natDescLE p.views q.views
  | "likes" => natDescLE p.likes q.likes
  | "retweets" => natDescLE p.retweets q.retweets
  | "replies" => natDescLE p.replies q.replies
  | "quotes" => natDescLE p.quotes q.quotes
  | "scraped_at" => intDescLE p.scraped_at q.scraped_at
  | _ => natDescLE p.views q.views

/-- `DatabaseManager.get_top_linkedin_posts(metric, limit)`: order the table
descending by the resolved column and keep the first `limit` rows. -/
def get_top_linkedin_posts (posts : List LinkedInPost) (metric : String)
    (limit : Nat) : List LinkedInPost :=
  (insertionSortB (linkedinOrderDesc metric) posts).take limit

/-- `DatabaseManager.get_top_twitter_posts(metric, limit)`. -/
def get_top_twitter_posts (posts : List TwitterPost) (metric : String)
    (limit : Nat) : List TwitterPost :=
  (insertionSortB (twitterOrderDesc metric) posts).take limit

/-- `get_top_linkedin_posts` with the `AttributeError` path made explicit.
`getattr(LinkedInPost, metric, LinkedInPost.views)` resolves any class
attribute, not only columns: for a non-column attribute (`metadata`,
`registry`, `__tablename__`, `__table__`, ...) the resolved object has no
`.desc()` and the call raises, modelled as `none`.  The exact attribute set
of the Python class is inherited from the declarative machinery and is not
derivable from this repository's source, so the non-column attribute names
are a parameter `attrs`; theorems quantify over it. -/
def get_top_linkedin_posts_checked (attrs : List String)
    (posts : List LinkedInPost) (metric : String) (limit : Nat) :
    Option (List LinkedInPost) :=
  if metric ∈ linkedinColumnNames then
    some (get_top_linkedin_posts posts metric limit)
  else if metric ∈ attrs then
    none
  else
    some (get_top_linkedin_posts posts metric limit)

/-- `get_top_twitter_posts` with the `AttributeError` path made explicit,
as in `get_top_linkedin_posts_checked`. -/
def get_top_twitter_posts_checked (attrs : List String)
    (posts : List TwitterPost) (metric : String) (limit : Nat) :
    Option (List TwitterPost) :=
  if metric ∈ twitterColumnNames then
    some (get_top_twitter_posts posts metric limit)
  else if metric ∈ attrs then
    none
  else
    some (get_top_twitter_posts posts metric limit)

/-- A row of the combined-leaderboard DataFrame built by
`get_combined_top_posts`. -/
structure CombinedRow where
  platform : String
  content : Option String
  url : Option String
  views : Nat
  likes : Nat
  date : Option Int
  engagement : Nat
deriving DecidableEq

/-- `post.content[:100] + "..." if post.content and len(post.content) > 100
else post.content`: the content preview shown on the leaderboard. -/
def truncContent : Option String → Option String
  | none => none
  | some s => if 100 < s.length then some (s.take 100 ++ "...") else some s

/-- The dictionary appended for a LinkedIn post in
`get_combined_top_posts`. -/
def combinedRowL (p : LinkedInPost) : CombinedRow :=
  { platform := "LinkedIn"
    content := truncContent p.content
    url := p.url
    views := p.views
    likes := p.likes
    date := p.date_posted
    engagement := p.likes + p.comments + p.reposts }

/-- The dictionary appended for a Twitter post in
`get_combined_top_posts`. -/
def combinedRowT (p : TwitterPost) : CombinedRow :=
  { platform := "Twitter"
    content := truncContent p.content
    url := p.url
    views := p.views
    likes := p.likes
    date := p.date_posted
    engagement := p.likes + p.retweets + p.replies + p.quotes }

/-- Comparator of the final `df.sort_values("views", ascending=False)`. -/
def rowViewsDesc (r s : CombinedRow) : Bool := natDescLE r.views s.views

/-- `DatabaseManager.get_combined_top_posts(limit)`: take the top `limit`
posts of each platform by views, merge, re-sort descending by views, and
truncate to `limit` with `.head(limit)`. -/
def get_combined_top_posts (db : Database) (limit : Nat) : List CombinedRow :=
  let lp := get_top_linkedin_posts db.linkedin_posts "views" limit
  let tp := get_top_twitter_posts db.twitter_posts "views" limit
  let data := lp.map combinedRowL ++ tp.map combinedRowT
  (insertionSortB rowViewsDesc data).take limit

/-- The dictionary returned by `DatabaseManager.get_stats_summary`. -/
structure StatsSummary where
  linkedin_posts : Nat
  twitter_posts : Nat
  total_linkedin_views : Nat
  total_twitter_views : Nat
  total_posts : Nat
  total_views : Nat
deriving DecidableEq

/-- `DatabaseManager.get_stats_summary`: full-table counts and in-memory
view sums (`sum(v[0] or 0 for v in ...)`). -/
def get_stats_summary (db : Database) : StatsSummary :=
  let linkedin_count := db.linkedin_posts.length
  let twitter_count := db.twitter_posts.length
  let linkedin_views := (db.linkedin_posts.map (fun p => p.views)).sum
  let twitter_views := (db.twitter_posts.map (fun p => p.views)).sum
  { linkedin_posts := linkedin_count
    twitter_posts := twitter_count
    total_linkedin_views := linkedin_views
    total_twitter_views := twitter_views
    total_posts := linkedin_count + twitter_count
    total_views := linkedin_views + twitter_views }

/-! ### Content workflow manager (`src/supabase_content.py`) -/

/-- Python values appearing in the Notion-compatible document shape. -/
inductive PyVal where
  | str (s : String)
  | list (xs : List PyVal)
  | dict (kvs : List (String × PyVal))
  | null

/-- Lookup in a Python dictionary (first binding of the key). -/
def dictGet (kvs : List (String × PyVal)) (k : String) : Option PyVal :=
  (kvs.find? (fun kv => kv.fst == k)).map (fun kv => kv.snd)

/-- `v.get(k, d)` for a dictionary value. -/
def pyGetD (v : PyVal) (k : String) (d : PyVal) : PyVal :=
  match v with
  | .dict kvs => (dictGet kvs k).getD d
  | _ => d

/-- Python truthiness of the values we model: empty strings, lists and
dictionaries and `None` are falsy. -/
def pyTruthy : PyVal → Bool
  | .str s => !(s == "")
  | .list xs => !xs.isEmpty
  | .dict kvs => !kvs.isEmpty
  | .null => false

/-- Python `a or b`. -/
def pyOr (a b : PyVal) : PyVal := if pyTruthy a then a else b

/-- Coerce a Python value to the string the title extractor returns; every
reachable value is already a string. -/
def pyToStr : PyVal → String
  | .str s => s
  | _ => ""

/-- Python `s or d` for a string with a string default. -/
def pyOrStr (s d : String) : String := if s == "" then d else s

/-- Row of the `content_pipeline` table (class `ContentPipeline`).  The
`id` column is a generated UUID, modelled as a string. -/
structure PipelineItem where
  id : String
  topic : String
  original_url : Option String
  status : String
  draft : Option String
  created_at : Option Int
  updated_at : Option Int
deriving DecidableEq

/-- Row of the `twitter_calendar` table (class `TwitterCalendar`). -/
structure CalendarItem where
  id : String
  topic : String
  draft : Option String
  scheduled_date : Option Int
  status : String
  created_at : Option Int
  updated_at : Option Int
deriving DecidableEq

/-- The value of the `Draft` property: `{"rich_text": [{"text": {"content":
item.draft or ""}}] if item.draft else []}`. -/
def draftRichText (draft : Option String) : PyVal :=
  match draft with
  | some s =>
    if s == "" then .list []
    else .list [.dict [("text", .dict [("content", .str s)])]]
  | none => .list []

/-- An `isoformat()` timestamp, or `None` when the column is null. -/
def pyTime : Option Int → PyVal
  | some t => .str (toString t)
  | none => .null

/-- `ContentManager._pipeline_to_notion_format`.  The `Topic` content is
`item.topic or ""`, which equals `item.topic` for every string. -/
def pipeline_to_notion_format (item : PipelineItem) : List (String × PyVal) :=
  [("id", .str item.id),
   ("properties", .dict
     [("Topic", .dict
        [("title", .list [.dict [("text", .dict [("content", .str item.topic)])]])]),
      ("Status", .dict
        [("select", .dict [("name", .str (pyOrStr item.status "Inspiration"))])]),
      ("Original URL", .dict
        [("url", match item.original_url with
                 | some u => .str u
                 | none => .null)]),
      ("Draft", .dict [("rich_text", draftRichText item.draft)])]),
   ("created_time", pyTime item.created_at),
   ("last_edited_time", pyTime item.updated_at)]

/-- `ContentManager._calendar_to_notion_format`. -/
def calendar_to_notion_format (item : CalendarItem) : List (String × PyVal) :=
  [("id", .str item.id),
   ("properties", .dict
     [("Topic", .dict
        [("title", .list [.dict [("text", .dict [("content", .str item.topic)])]])]),
      ("Status", .dict
        [("select", .dict [("name", .str (pyOrStr item.status "Pending"))])]),
      ("Draft", .dict [("rich_text", draftRichText item.draft)]),
      ("Scheduled Date", .dict
        [("date", match item.scheduled_date with
                  | some d1 => .dict [("start", .str (toString d1))]
                  | none => .null)])]),
   ("created_time", pyTime item.created_at),
   ("last_edited_time", pyTime item.updated_at)]

/-- `ContentManager.get_item_title`: read the nested title out of the
Notion-compatible document, tolerating a `Topic` or `Title` property, and
falling back to a direct `topic` key. -/
def get_item_title (item : List (String × PyVal)) : String :=
  let props := (dictGet item "properties").getD (.dict [])
  let topicProp := pyOr (pyGetD props "Topic" (.dict [])) (pyGetD props "Title" (.dict []))
  let titleContent := pyGetD topicProp "title" (.list [])
  if pyTruthy titleContent then
    match titleContent with
    | .list (x :: _) =>
      pyToStr (pyGetD (pyGetD x "text" (.dict [])) "content" (.str ""))
    | _ => ""
  else
    pyToStr ((dictGet item "topic").getD (.str ""))

/-- `ContentManager.update_pipeline_status`: set the status of the row with
the given id, returning its summary dictionary, or return `{}` when no row
matches. -/
def update_pipeline_status (items : List PipelineItem) (page_id status : String)
    (now : Int) : List PipelineItem × PyVal :=
  match items.find? (fun i => i.id == page_id) with
  | some i =>
    (updateFirst (fun j => j.id == page_id)
       (fun j => { j with status := status, updated_at := some now }) items,
     .dict [("id", .str i.id), ("status", .str status)])
  | none => (items, .dict [])

/-- `ContentManager.update_pipeline_draft`: store the draft text unchanged
and transition the status to `"Drafted"`; return `{}` on a missing id. -/
def update_pipeline_draft (items : List PipelineItem) (page_id draft : String)
    (now : Int) : List PipelineItem × PyVal :=
  match items.find? (fun i => i.id == page_id) with
  | some i =>
    (updateFirst (fun j => j.id == page_id)
       (fun j => { j with draft := some draft, status := "Drafted",
                          updated_at := some now }) items,
     .dict [("id", .str i.id), ("draft", .str draft)])
  | none => (items, .dict [])

/-- `ContentManager.update_twitter_draft`: store `draft[:2000]` and
transition the status to `"Drafted"`; return `{}` on a missing id. -/
def update_twitter_draft (items : List CalendarItem) (page_id draft : String)
    (now : Int) : List CalendarItem × PyVal :=
  match items.find? (fun i => i.id == page_id) with
  | some i =>
    (updateFirst (fun j => j.id == page_id)
       (fun j => { j with draft := some (draft.take 2000), status := "Drafted",
                          updated_at := some now }) items,
     .dict [("id", .str i.id), ("draft", .str (draft.take 2000))])
  | none => (items, .dict [])

/-- The SQL filter of the `has_draft is True` branch:
`draft.isnot(None), draft != ""`. -/
def draftNonEmptyB (i : CalendarItem) : Bool :=
  match i.draft with
  | some s => !(s == "")
  | none => false

/-- The SQL filter of the `has_draft is False` branch:
`(draft.is_(None)) | (draft == "")`. -/
def draftNullOrEmptyB (i : CalendarItem) : Bool :=
  match i.draft with
  | some s => s == ""
  | none => true

/-- Comparator of `order_by(scheduled_date.asc().nullslast())`. -/
def schedAscNullsLast (i j : CalendarItem) : Bool :=
  match i.scheduled_date, j.scheduled_date with
  | some a, some b => decide (a ≤ b)
  | some _, none => true
  | none, none => true
  | none, some _ => false

/-- `ContentManager.get_twitter_calendar_items`: filter by draft presence,
order by scheduled date (nulls last) and translate each row to the
Notion-compatible shape. -/
def get_twitter_calendar_items (items : List CalendarItem)
    (has_draft : Option Bool) : List (List (String × PyVal)) :=
  let filtered :=
    match has_draft with
    | some true => items.filter draftNonEmptyB
    | some false => items.filter draftNullOrEmptyB
    | none => items
  (insertionSortB schedAscNullsLast filtered).map calendar_to_notion_format

/-- The `rich_text` value of the `Draft` property of a formatted calendar
document; distinguishes items with and without a draft. -/
def docDraftRich (d : List (String × PyVal)) : PyVal :=
  pyGetD (pyGetD ((dictGet d "properties").getD (PyVal.dict []))
    "Draft" (PyVal.dict [])) "rich_text" (PyVal.list [])

/-! ### Concrete records used in witnesses and counterexamples -/

/-- A stored LinkedIn post with external id `"p1"`. -/
def pW : LinkedInPost :=
  { id := 1, post_id := "p1", url := none, content := none, date_posted := none,
    views := 100, likes := 5, comments := 2, reposts := 1, scraped_at := 0 }

/-- A later scrape of the same external id with fresh counts. -/
def dW : LinkedInPostData :=
  { post_id := "p1", views := some 200, likes := some 9 }

/-- A scrape of a distinct external id. -/
def dW2 : LinkedInPostData := { post_id := "p2", views := some 50 }

/-- A Twitter scrape record. -/
def tW : TwitterPostData := { tweet_id := "t1", views := some 90 }

/-- A Twitter scrape record with a distinct external id. -/
def tW2 : TwitterPostData := { tweet_id := "t2" }

/-- LinkedIn post with high views and a lexicographically small content. -/
def pA : LinkedInPost :=
  { id := 1, post_id := "a", url := none, content := some "a",
    date_posted := none, views := 10, likes := 1, comments := 2, reposts := 3,
    scraped_at := 0 }

/-- LinkedIn post with low views and a lexicographically large content. -/
def pB : LinkedInPost :=
  { id := 2, post_id := "b", url := none, content := some "z",
    date_posted := none, views := 5, likes := 0, comments := 0, reposts := 0,
    scraped_at := 0 }

/-- A 2001-character draft text, one character beyond the calendar limit. -/
def longText : String := String.mk (List.replicate 2001 'a')

/-- A pipeline item with no draft yet. -/
def pEx : PipelineItem :=
  { id := "p1", topic := "t", original_url := none, status := "Inspiration",
    draft := none, created_at := none, updated_at := none }

/-- A calendar item whose draft is a single space: non-empty as a string but
empty after trimming whitespace. -/
def cEx : CalendarItem :=
  { id := "c1", topic := "t", draft := some " ", scheduled_date := none,
    status := "Pending", created_at := none, updated_at := none }

/-- A calendar item with no draft yet. -/
def cW : CalendarItem :=
  { id := "c2", topic := "u", draft := none, scheduled_date := none,
    status := "Pending", created_at := none, updated_at := none }

/-! ### General lemmas about the list operations -/

theorem perm_orderedInsertB (le : α → α → Bool) (a : α) :
    ∀ l : List α, List.Perm (orderedInsertB le a l) (a :: l)
  | [] => List.Perm.refl _
  | b :: l => by
    unfold orderedInsertB
    by_cases h : le a b
    · simp [h]
    · simp only [h, if_false]
      exact ((perm_orderedInsertB le a l).cons b).trans (List.Perm.swap a b l)

theorem perm_insertionSortB (le : α → α → Bool) :
    ∀ l : List α, List.Perm (insertionSortB le l) l
  | [] => List.Perm.refl _
  | b :: l =>
    (perm_orderedInsertB le b (insertionSortB le l)).trans
      ((perm_insertionSortB le l).cons b)

theorem mem_insertionSortB {le : α → α → Bool} {l : List α} {x : α} :
    x ∈ insertionSortB le l ↔ x ∈ l :=
  (perm_insertionSortB le l).mem_iff

theorem length_insertionSortB (le : α → α → Bool) (l : List α) :
    (insertionSortB le l).length = l.length :=
  (perm_insertionSortB le l).length_eq

theorem mem_orderedInsertB {le : α → α → Bool} {a x : α} {l : List α} :
    x ∈ orderedInsertB le a l ↔ x = a ∨ x ∈ l := by
  rw [(perm_orderedInsertB le a l).mem_iff, List.mem_cons]

theorem sorted_orderedInsertB (le : α → α → Bool)
    (htrans : ∀ a b c, le a b = true → le b c = true → le a c = true)
    (htotal : ∀ a b, le a b = true ∨ le b a = true) (a : α) :
    ∀ l : List α, l.Pairwise (fun x y => le x y = true) →
      (orderedInsertB le a l).Pairwise (fun x y => le x y = true)
  | [], _ => by simp [orderedInsertB]
  | b :: l, h => by
    unfold orderedInsertB
    by_cases hab : le a b
    · simp only [hab, if_true]
      refine List.Pairwise.cons ?_ h
      intro c hc
      rcases List.mem_cons.mp hc with rfl | hcl
      · exact hab
      · exact htrans a b c hab (List.rel_of_pairwise_cons h hcl)
    · simp only [hab, if_false]
      have hba : le b a = true := by
        rcases htotal a b with h1 | h1
        · exact absurd h1 hab
        · exact h1
      refine List.Pairwise.cons ?_
        (sorted_orderedInsertB le htrans htotal a l h.of_cons)
      intro c hc
      rcases mem_orderedInsertB.mp hc with rfl | hcl
      · exact hba
      · exact List.rel_of_pairwise_cons h hcl

theorem sorted_insertionSortB (le : α → α → Bool)
    (htrans : ∀ a b c, le a b = true → le b c = true → le a c = true)
    (htotal : ∀ a b, le a b = true ∨ le b a = true) :
    ∀ l : List α, (insertionSortB le l).Pairwise (fun x y => le x y = true)
  | [] => by simp [insertionSortB]
  | b :: l =>
    sorted_orderedInsertB le htrans htotal b (insertionSortB le l)
      (sorted_insertionSortB le htrans htotal l)

theorem countP_updateFirst (q : α → Bool) (f : α → α)
    (hf : ∀ x, q x = true → q (f x) = true) :
    ∀ l : List α, (updateFirst q f l).countP q = l.countP q
  | [] => rfl
  | x :: xs => by
    unfold updateFirst
    by_cases h : q x
    · simp [h, List.countP_cons, hf x h]
    · simp [h, List.countP_cons, countP_updateFirst q f hf xs]

theorem length_updateFirst (q : α → Bool) (f : α → α) :
    ∀ l : List α, (updateFirst q f l).length = l.length
  | [] => rfl
  | x :: xs => by
    unfold updateFirst
    by_cases h : q x
    · simp [h]
    · simp [h, length_updateFirst q f xs]

theorem mem_updateFirst (q : α → Bool) (f : α → α) :
    ∀ l : List α, l.countP q ≤ 1 → ∀ x ∈ l, q x = true →
      f x ∈ updateFirst q f l
  | [], _, x, hx, _ => absurd hx (List.not_mem_nil x)
  | y :: ys, hc, x, hx, hqx => by
    unfold updateFirst
    by_cases h : q y
    · simp only [h, if_true]
      rcases List.mem_cons.mp hx with rfl | hxy
      · exact List.mem_cons_self _ _
      · exfalso
        have h1 : 1 ≤ ys.countP q := List.countP_pos_iff.mpr ⟨x, hxy, hqx⟩
        have h2 : (y :: ys).countP q = ys.countP q + 1 := by
          simp [List.countP_cons, h]
        omega
    · simp only [h, if_false]
      rcases List.mem_cons.mp hx with rfl | hxy
      · exact absurd hqx (by simp [h])
      · have hc2 : ys.countP q ≤ 1 := by
          have : (y :: ys).countP q = ys.countP q := by
            simp [List.countP_cons, h]
          omega
        exact List.mem_cons_of_mem y (mem_updateFirst q f ys hc2 x hxy hqx)

theorem upsertL_of_absent (posts : List LinkedInPost) (d : LinkedInPostData)
    (now : Int) (h0 : countIdL posts d.post_id = 0) :
    upsert_linkedin_post posts d now = posts ++ [newLinkedInPost posts d now] := by
  have hany : posts.any (fun p => p.post_id == d.post_id) = false := by
    rw [Bool.eq_false_iff]
    intro hx
    obtain ⟨x, hxl, hq⟩ := List.any_eq_true.mp hx
    have hpos : 0 < posts.countP (fun p => p.post_id == d.post_id) :=
      List.countP_pos_iff.mpr ⟨x, hxl, hq⟩
    have : countIdL posts d.post_id = posts.countP (fun p => p.post_id == d.post_id) := rfl
    omega
  simp [upsert_linkedin_post, hany]

theorem upsertT_of_absent (posts : List TwitterPost) (t : TwitterPostData)
    (now : Int) (h0 : countIdT posts t.tweet_id = 0) :
    upsert_twitter_post posts t now = posts ++ [newTwitterPost posts t now] := by
  have hany : posts.any (fun p => p.tweet_id == t.tweet_id) = false := by
    rw [Bool.eq_false_iff]
    intro hx
    obtain ⟨x, hxl, hq⟩ := List.any_eq_true.mp hx
    have hpos : 0 < posts.countP (fun p => p.tweet_id == t.tweet_id) :=
      List.countP_pos_iff.mpr ⟨x, hxl, hq⟩
    have : countIdT posts t.tweet_id = posts.countP (fun p => p.tweet_id == t.tweet_id) := rfl
    omega
  simp [upsert_twitter_post, hany]

theorem countIdL_upsert (posts : List LinkedInPost) (d : LinkedInPostData)
    (now : Int) (h : countIdL posts d.post_id ≤ 1) :
    countIdL (upsert_linkedin_post posts d now) d.post_id = 1 := by
  by_cases hany : posts.any (fun p => p.post_id == d.post_id) = true
  · have hcount : countIdL (upsert_linkedin_post posts d now) d.post_id
        = countIdL posts d.post_id := by
      show (upsert_linkedin_post posts d now).countP (fun p => p.post_id == d.post_id)
        = posts.countP (fun p => p.post_id == d.post_id)
      rw [upsert_linkedin_post, if_pos hany]
      exact countP_updateFirst _ _ (fun x _ => by simp [applyLinkedInUpdate]) posts
    obtain ⟨x, hxl, hq⟩ := List.any_eq_true.mp hany
    have hpos : 0 < posts.countP (fun p => p.post_id == d.post_id) :=
      List.countP_pos_iff.mpr ⟨x, hxl, hq⟩
    have hle : posts.countP (fun p => p.post_id == d.post_id) ≤ 1 := h
    have : posts.countP (fun p => p.post_id == d.post_id) = 1 := by omega
    rw [hcount]
    exact this
  · have hzero : countIdL posts d.post_id = 0 := by
      have : ∀ x ∈ posts, ¬((fun p => p.post_id == d.post_id) x = true) := by
        intro x hxl hq
        exact hany (List.any_eq_true.mpr ⟨x, hxl, hq⟩)
      exact List.countP_eq_zero.mpr this
    rw [upsertL_of_absent posts d now hzero]
    show (posts ++ [newLinkedInPost posts d now]).countP (fun p => p.post_id == d.post_id) = 1
    rw [List.countP_append]
    have h1 : posts.countP (fun p => p.post_id == d.post_id) = 0 := hzero
    have h2 : ([newLinkedInPost posts d now]).countP (fun p => p.post_id == d.post_id) = 1 := by
      simp [List.countP_cons, newLinkedInPost]
    omega

theorem countIdT_upsert (posts : List TwitterPost) (t : TwitterPostData)
    (now : Int) (h : countIdT posts t.tweet_id ≤ 1) :
    countIdT (upsert_twitter_post posts t now) t.tweet_id = 1 := by
  by_cases hany : posts.any (fun p => p.tweet_id == t.tweet_id) = true
  · have hcount : countIdT (upsert_twitter_post posts t now) t.tweet_id
        = countIdT posts t.tweet_id := by
      show (upsert_twitter_post posts t now).countP (fun p => p.tweet_id == t.tweet_id)
        = posts.countP (fun p => p.tweet_id == t.tweet_id)
      rw [upsert_twitter_post, if_pos hany]
      exact countP_updateFirst _ _ (fun x _ => by simp [applyTwitterUpdate]) posts
    obtain ⟨x, hxl, hq⟩ := List.any_eq_true.mp hany
    have hpos : 0 < posts.countP (fun p => p.tweet_id == t.tweet_id) :=
      List.countP_pos_iff.mpr ⟨x, hxl, hq⟩
    have hle : posts.countP (fun p => p.tweet_id == t.tweet_id) ≤ 1 := h
    have : posts.countP (fun p => p.tweet_id == t.tweet_id) = 1 := by omega
    rw [hcount]
    exact this
  · have hzero : countIdT posts t.tweet_id = 0 := by
      have : ∀ x ∈ posts, ¬((fun p => p.tweet_id == t.tweet_id) x = true) := by
        intro x hxl hq
        exact hany (List.any_eq_true.mpr ⟨x, hxl, hq⟩)
      exact List.countP_eq_zero.mpr this
    rw [upsertT_of_absent posts t now hzero]
    show (posts ++ [newTwitterPost posts t now]).countP (fun p => p.tweet_id == t.tweet_id) = 1
    rw [List.countP_append]
    have h1 : posts.countP (fun p => p.tweet_id == t.tweet_id) = 0 := hzero
    have h2 : ([newTwitterPost posts t now]).countP (fun p => p.tweet_id == t.tweet_id) = 1 := by
      simp [List.countP_cons, newTwitterPost]
    omega

/-- C1: for every post variant, upserting a record whose external id is
already stored leaves exactly one row for that id, with every non-null field
of the call overwriting the stored field and the scrape timestamp refreshed;
upserting an id that is not present appends a new row, so two upserts with
distinct absent ids add two rows.  The `≤ 1` hypotheses are the uniqueness
invariant enforced by the unique index on the external-id columns. -/
theorem upsert_post_identity
    (ldb : List LinkedInPost) (d d2 : LinkedInPostData) (now now2 : Int)
    (tdb : List TwitterPost) (t t2 : TwitterPostData) (m m2 : Int)
    (hL : countIdL ldb d.post_id ≤ 1) (hT : countIdT tdb t.tweet_id ≤ 1) :
    countIdL (upsert_linkedin_post ldb d now) d.post_id = 1
    ∧ (∀ p ∈ ldb, p.post_id = d.post_id →
        applyLinkedInUpdate p d now ∈ upsert_linkedin_post ldb d now
        ∧ (applyLinkedInUpdate p d now).views = d.views.getD p.views
        ∧ (applyLinkedInUpdate p d now).likes = d.likes.getD p.likes
        ∧ (applyLinkedInUpdate p d now).comments = d.comments.getD p.comments
        ∧ (applyLinkedInUpdate p d now).reposts = d.reposts.getD p.reposts
        ∧ (applyLinkedInUpdate p d now).content = d.content.or p.content
        ∧ (applyLinkedInUpdate p d now).scraped_at = now)
    ∧ (countIdL ldb d.post_id = 0 →
        upsert_linkedin_post ldb d now = ldb ++ [newLinkedInPost ldb d now])
    ∧ (countIdL ldb d.post_id = 0 → countIdL ldb d2.post_id = 0 →
        d.post_id ≠ d2.post_id →
        (upsert_linkedin_post (upsert_linkedin_post ldb d now) d2 now2).length
          = ldb.length + 2)
    ∧ countIdT (upsert_twitter_post tdb t m) t.tweet_id = 1
    ∧ (∀ p ∈ tdb, p.tweet_id = t.tweet_id →
        applyTwitterUpdate p t m ∈ upsert_twitter_post tdb t m
        ∧ (applyTwitterUpdate p t m).views = t.views.getD p.views
        ∧ (applyTwitterUpdate p t m).likes = t.likes.getD p.likes
        ∧ (applyTwitterUpdate p t m).retweets = t.retweets.getD p.retweets
        ∧ (applyTwitterUpdate p t m).replies = t.replies.getD p.replies
        ∧ (applyTwitterUpdate p t m).quotes = t.quotes.getD p.quotes
        ∧ (applyTwitterUpdate p t m).scraped_at = m)
    ∧ (countIdT tdb t.tweet_id = 0 →
        upsert_twitter_post tdb t m = tdb ++ [newTwitterPost tdb t m])
    ∧ (countIdT tdb t.tweet_id = 0 → countIdT tdb t2.tweet_id = 0 →
        t.tweet_id ≠ t2.tweet_id →
        (upsert_twitter_post (upsert_twitter_post tdb t m) t2 m2).length
          = tdb.length + 2) := by
  refine ⟨countIdL_upsert ldb d now hL, ?_, upsertL_of_absent ldb d now, ?_,
          countIdT_upsert tdb t m hT, ?_, upsertT_of_absent tdb t m, ?_⟩
  · intro p hp hpid
    refine ⟨?_, rfl, rfl, rfl, rfl, rfl, rfl⟩
    have hany : ldb.any (fun p => p.post_id == d.post_id) = true :=
      List.any_eq_true.mpr ⟨p, hp, by simp [hpid]⟩
    rw [upsert_linkedin_post, if_pos hany]
    exact mem_updateFirst _ _ ldb hL p hp (by simp [hpid])
  · intro h0 h02 hne
    rw [upsertL_of_absent ldb d now h0]
    have hnew : (newLinkedInPost ldb d now).post_id = d.post_id := rfl
    have h02x : countIdL (ldb ++ [newLinkedInPost ldb d now]) d2.post_id = 0 := by
      show (ldb ++ [newLinkedInPost ldb d now]).countP
        (fun p => p.post_id == d2.post_id) = 0
      rw [List.countP_append]
      have h1 : ldb.countP (fun p => p.post_id == d2.post_id) = 0 := h02
      have h2 : ([newLinkedInPost ldb d now]).countP
          (fun p => p.post_id == d2.post_id) = 0 := by
        simp [List.countP_cons, hnew, hne]
      omega
    rw [upsertL_of_absent _ d2 now2 h02x]
    simp
  · intro p hp hpid
    refine ⟨?_, rfl, rfl, rfl, rfl, rfl, rfl⟩
    have hany : tdb.any (fun p => p.tweet_id == t.tweet_id) = true :=
      List.any_eq_true.mpr ⟨p, hp, by simp [hpid]⟩
    rw [upsert_twitter_post, if_pos hany]
    exact mem_updateFirst _ _ tdb hT p hp (by simp [hpid])
  · intro h0 h02 hne
    rw [upsertT_of_absent tdb t m h0]
    have hnew : (newTwitterPost tdb t m).tweet_id = t.tweet_id := rfl
    have h02x : countIdT (tdb ++ [newTwitterPost tdb t m]) t2.tweet_id = 0 := by
      show (tdb ++ [newTwitterPost tdb t m]).countP
        (fun p => p.tweet_id == t2.tweet_id) = 0
      rw [List.countP_append]
      have h1 : tdb.countP (fun p => p.tweet_id == t2.tweet_id) = 0 := h02
      have h2 : ([newTwitterPost tdb t m]).countP
          (fun p => p.tweet_id == t2.tweet_id) = 0 := by
        simp [List.countP_cons, hnew, hne]
      omega
    rw [upsertT_of_absent _ t2 m2 h02x]
    simp

/-- Witness for C1 at a concrete store: the uniqueness hypotheses hold for a
one-row LinkedIn table and an empty Twitter table, and the upsert of the
already-present id `"p1"` leaves exactly one row for it. -/
theorem upsert_post_identity_witness :
    countIdL [pW] dW.post_id ≤ 1 ∧ countIdT ([] : List TwitterPost) tW.tweet_id ≤ 1
    ∧ countIdL (upsert_linkedin_post [pW] dW 5) dW.post_id = 1 :=
  ⟨by decide, by decide,
   (upsert_post_identity [pW] dW dW2 5 6 [] tW tW2 7 8
     (by decide) (by decide)).1⟩

theorem rowViewsDesc_trans (a b c : CombinedRow) :
    rowViewsDesc a b = true → rowViewsDesc b c = true → rowViewsDesc a c = true := by
  simp only [rowViewsDesc, natDescLE, decide_eq_true_eq]
  omega

theorem rowViewsDesc_total (a b : CombinedRow) :
    rowViewsDesc a b = true ∨ rowViewsDesc b a = true := by
  simp only [rowViewsDesc, natDescLE, decide_eq_true_eq]
  omega

theorem combined_row_mem (db : Database) (N : Nat) {r : CombinedRow}
    (hr : r ∈ get_combined_top_posts db N) :
    (∃ p, p ∈ get_top_linkedin_posts db.linkedin_posts "views" N
       ∧ p ∈ db.linkedin_posts ∧ r = combinedRowL p)
    ∨ (∃ p, p ∈ get_top_twitter_posts db.twitter_posts "views" N
       ∧ p ∈ db.twitter_posts ∧ r = combinedRowT p) := by
  have hr1 : r ∈ insertionSortB rowViewsDesc
      ((get_top_linkedin_posts db.linkedin_posts "views" N).map combinedRowL
        ++ (get_top_twitter_posts db.twitter_posts "views" N).map combinedRowT) :=
    List.mem_of_mem_take hr
  have hr2 := mem_insertionSortB.mp hr1
  rcases List.mem_append.mp hr2 with hl | ht
  · obtain ⟨p, hpmem, hpr⟩ := List.mem_map.mp hl
    left
    refine ⟨p, hpmem, ?_, hpr.symm⟩
    have : p ∈ insertionSortB (linkedinOrderDesc "views") db.linkedin_posts :=
      List.mem_of_mem_take hpmem
    exact mem_insertionSortB.mp this
  · obtain ⟨p, hpmem, hpr⟩ := List.mem_map.mp ht
    right
    refine ⟨p, hpmem, ?_, hpr.symm⟩
    have : p ∈ insertionSortB (twitterOrderDesc "views") db.twitter_posts :=
      List.mem_of_mem_take hpmem
    exact mem_insertionSortB.mp this

/-- C2: `get_combined_top_posts(limit=N)` returns at most `N` rows, sorted
descending by view count, and every returned row is the translation of a
post from the corresponding per-variant top-`N`-by-views leaderboard, with
its engagement equal to the sum of that variant's non-view interaction
counters. -/
theorem combined_top_posts_spec (db : Database) (N : Nat) :
    (get_combined_top_posts db N).length ≤ N
    ∧ (get_combined_top_posts db N).Pairwise (fun r s => s.views ≤ r.views)
    ∧ ∀ r ∈ get_combined_top_posts db N,
        (∃ p, p ∈ get_top_linkedin_posts db.linkedin_posts "views" N
           ∧ p ∈ db.linkedin_posts ∧ r = combinedRowL p
           ∧ r.engagement = p.likes + p.comments + p.reposts)
        ∨ (∃ p, p ∈ get_top_twitter_posts db.twitter_posts "views" N
           ∧ p ∈ db.twitter_posts ∧ r = combinedRowT p
           ∧ r.engagement = p.likes + p.retweets + p.replies + p.quotes) := by
  refine ⟨?_, ?_, ?_⟩
  · exact List.length_take_le N _
  · have hs := sorted_insertionSortB rowViewsDesc rowViewsDesc_trans
      rowViewsDesc_total ((get_top_linkedin_posts db.linkedin_posts "views" N).map
        combinedRowL ++ (get_top_twitter_posts db.twitter_posts "views" N).map
        combinedRowT)
    have htake := List.take_sublist N (insertionSortB rowViewsDesc
      ((get_top_linkedin_posts db.linkedin_posts "views" N).map combinedRowL
        ++ (get_top_twitter_posts db.twitter_posts "views" N).map combinedRowT))
    have hp := List.Pairwise.sublist htake hs
    exact hp.imp (fun h => by
      simpa [rowViewsDesc, natDescLE] using h)
  · intro r hr
    rcases combined_row_mem db N hr with ⟨p, h1, h2, h3⟩ | ⟨p, h1, h2, h3⟩
    · exact Or.inl ⟨p, h1, h2, h3, by rw [h3]; rfl⟩
    · exact Or.inr ⟨p, h1, h2, h3, by rw [h3]; rfl⟩

theorem truncContent_spec (c : Option String) :
    (∃ s, c = some s ∧ 100 < s.length
       ∧ truncContent c = some (s.take 100 ++ "..."))
    ∨ ((∀ s, c = some s → s.length ≤ 100) ∧ truncContent c = c) := by
  match c with
  | none => exact Or.inr ⟨(fun s h => nomatch h), rfl⟩
  | some s =>
    by_cases h : 100 < s.length
    · exact Or.inl ⟨s, rfl, h, by simp [truncContent, h]⟩
    · refine Or.inr ⟨fun x hx => ?_, by simp [truncContent, h]⟩
      cases hx
      omega

/-- C10: every row of the combined leaderboard carries the stored content
truncated to its first 100 characters plus an ellipsis when the stored
content is non-null and longer than 100 characters, and the stored content
unchanged otherwise. -/
theorem combined_row_content_preview (db : Database) (N : Nat) :
    ∀ r ∈ get_combined_top_posts db N,
      (∃ p, p ∈ db.linkedin_posts
         ∧ ((∃ s, p.content = some s ∧ 100 < s.length
               ∧ r.content = some (s.take 100 ++ "..."))
            ∨ ((∀ s, p.content = some s → s.length ≤ 100)
               ∧ r.content = p.content)))
      ∨ (∃ p, p ∈ db.twitter_posts
         ∧ ((∃ s, p.content = some s ∧ 100 < s.length
               ∧ r.content = some (s.take 100 ++ "..."))
            ∨ ((∀ s, p.content = some s → s.length ≤ 100)
               ∧ r.content = p.content))) := by
  intro r hr
  rcases combined_row_mem db N hr with ⟨p, _, h2, h3⟩ | ⟨p, _, h2, h3⟩
  · have hc : r.content = truncContent p.content := by rw [h3]; rfl
    rw [hc]
    exact Or.inl ⟨p, h2, truncContent_spec p.content⟩
  · have hc : r.content = truncContent p.content := by rw [h3]; rfl
    rw [hc]
    exact Or.inr ⟨p, h2, truncContent_spec p.content⟩

/-- C7: `get_stats_summary` on an empty database returns all-zero counts
and views, and in general its combined totals are the sums of the
per-platform fields. -/
theorem stats_summary_spec (db : Database) :
    get_stats_summary { linkedin_posts := [], twitter_posts := [] }
      = { linkedin_posts := 0, twitter_posts := 0, total_linkedin_views := 0,
          total_twitter_views := 0, total_posts := 0, total_views := 0 }
    ∧ (get_stats_summary db).total_posts
        = (get_stats_summary db).linkedin_posts + (get_stats_summary db).twitter_posts
    ∧ (get_stats_summary db).total_views
        = (get_stats_summary db).total_linkedin_views
          + (get_stats_summary db).total_twitter_views :=
  ⟨rfl, rfl, rfl⟩

/-- C5: translating a native pipeline row to the Notion-compatible document
shape and extracting its title returns the topic text unchanged. -/
theorem pipeline_title_roundtrip (item : PipelineItem) :
    get_item_title (pipeline_to_notion_format item) = item.topic := rfl

theorem linkedinOrderDesc_fallback (metric : String)
    (h : metric ∉ linkedinColumnNames) :
    linkedinOrderDesc metric = linkedinOrderDesc "views" := by
  funext p q
  have hv : linkedinOrderDesc "views" p q = natDescLE p.views q.views := rfl
  rw [hv]
  unfold linkedinOrderDesc
  split <;> simp_all [linkedinColumnNames]

theorem twitterOrderDesc_fallback (metric : String)
    (h : metric ∉ twitterColumnNames) :
    twitterOrderDesc metric = twitterOrderDesc "views" := by
  funext p q
  have hv : twitterOrderDesc "views" p q = natDescLE p.views q.views := rfl
  rw [hv]
  unfold twitterOrderDesc
  split <;> simp_all [twitterColumnNames]

/-- C6 (amended): for every metric name that is neither a column nor any
other attribute of the requested variant's model class — exactly the names
on which `getattr(Model, metric, Model.views)` returns its `views` default —
`get_top_posts` succeeds and returns exactly the rows, in the same order, of
the explicit views leaderboard.  The quantification over `attrsL`/`attrsT`
covers every possible non-column attribute set of the Python class; a name
inside it yields `none` (the `AttributeError` on `.desc()`), and a name that
is a non-metric column, such as `"content"`, orders by that column — see the
counterexample. -/
theorem get_top_posts_unrecognized_metric
    (attrsL attrsT : List String)
    (lposts : List LinkedInPost) (tposts : List TwitterPost)
    (metric : String) (limit : Nat)
    (hL : metric ∉ linkedinColumnNames) (hLa : metric ∉ attrsL)
    (hT : metric ∉ twitterColumnNames) (hTa : metric ∉ attrsT) :
    get_top_linkedin_posts_checked attrsL lposts metric limit
      = some (get_top_linkedin_posts lposts "views" limit)
    ∧ get_top_twitter_posts_checked attrsT tposts metric limit
      = some (get_top_twitter_posts tposts "views" limit) := by
  constructor
  · rw [get_top_linkedin_posts_checked, if_neg hL, if_neg hLa]
    have h : get_top_linkedin_posts lposts metric limit
        = get_top_linkedin_posts lposts "views" limit := by
      show (insertionSortB (linkedinOrderDesc metric) lposts).take limit
        = (insertionSortB (linkedinOrderDesc "views") lposts).take limit
      rw [linkedinOrderDesc_fallback metric hL]
    rw [h]
  · rw [get_top_twitter_posts_checked, if_neg hT, if_neg hTa]
    have h : get_top_twitter_posts tposts metric limit
        = get_top_twitter_posts tposts "views" limit := by
      show (insertionSortB (twitterOrderDesc metric) tposts).take limit
        = (insertionSortB (twitterOrderDesc "views") tposts).take limit
      rw [twitterOrderDesc_fallback metric hT]
    rw [h]

/-- Witness for C6 (amended) at the metric name `"foo"`, which is neither a
column nor among the declarative non-column class attributes. -/
theorem get_top_posts_unrecognized_metric_witness :
    "foo" ∉ linkedinColumnNames
    ∧ "foo" ∉ ["metadata", "registry", "__tablename__", "__table__", "__mapper__"]
    ∧ get_top_linkedin_posts_checked
        ["metadata", "registry", "__tablename__", "__table__", "__mapper__"]
        [pA, pB] "foo" 2
        = some (get_top_linkedin_posts [pA, pB] "views" 2) :=
  ⟨by decide, by decide,
   (get_top_posts_unrecognized_metric
     ["metadata", "registry", "__tablename__", "__table__", "__mapper__"]
     ["metadata", "registry", "__tablename__", "__table__", "__mapper__"]
     [pA, pB] [] "foo" 2
     (by decide) (by decide) (by decide) (by decide)).1⟩

/-- Counterexample to C6 as stated: `"content"` is not one of the metric
columns of the LinkedIn variant, yet `get_top_posts` orders by the content
column instead of falling back to views, producing a different order. -/
theorem get_top_posts_metric_counterexample :
    "content" ∉ ["views", "likes", "comments", "reposts"]
    ∧ get_top_linkedin_posts [pA, pB] "content" 2 = [pB, pA]
    ∧ get_top_linkedin_posts [pA, pB] "views" 2 = [pA, pB]
    ∧ ([pB, pA] : List LinkedInPost) ≠ [pA, pB] :=
  ⟨by decide, by decide, by decide, by decide⟩

theorem update_pipeline_draft_mem (items : List PipelineItem)
    (pid text : String) (now : Int)
    (h : items.countP (fun i => i.id == pid) ≤ 1) :
    ∀ i ∈ items, i.id = pid →
      { i with draft := some text, status := "Drafted", updated_at := some now }
        ∈ (update_pipeline_draft items pid text now).1 := by
  intro i hi hid
  rcases hfind : items.find? (fun j => j.id == pid) with _ | j
  · exfalso
    have := List.find?_eq_none.mp hfind i hi
    simp [hid] at this
  · show _ ∈ (update_pipeline_draft items pid text now).1
    rw [update_pipeline_draft, hfind]
    exact mem_updateFirst _ _ items h i hi (by simp [hid])

theorem update_twitter_draft_mem (items : List CalendarItem)
    (cid text : String) (now : Int)
    (h : items.countP (fun i => i.id == cid) ≤ 1) :
    ∀ i ∈ items, i.id = cid →
      { i with draft := some (text.take 2000), status := "Drafted",
               updated_at := some now }
        ∈ (update_twitter_draft items cid text now).1 := by
  intro i hi hid
  rcases hfind : items.find? (fun j => j.id == cid) with _ | j
  · exfalso
    have := List.find?_eq_none.mp hfind i hi
    simp [hid] at this
  · show _ ∈ (update_twitter_draft items cid text now).1
    rw [update_twitter_draft, hfind]
    exact mem_updateFirst _ _ items h i hi (by simp [hid])

/-- Counterexample to C3 as stated: the pipeline draft update persists a
2001-character input unchanged, with no truncation to 2000 units. -/
theorem pipeline_draft_no_truncation :
    longText.length = 2001
    ∧ (update_pipeline_draft [pEx] "p1" longText 0).1
        = [({ pEx with draft := some longText, status := "Drafted",
                       updated_at := some 0 })]
    ∧ ((update_pipeline_draft [pEx] "p1" longText 0).1.map
        (fun i => (i.draft.getD "").length)) = [2001] := by
  have hlen : longText.length = 2001 := by
    have h1 : longText.length = (List.replicate 2001 'a').length := rfl
    rw [h1, List.length_replicate]
  refine ⟨hlen, rfl, ?_⟩
  have h2 : ((update_pipeline_draft [pEx] "p1" longText 0).1.map
      (fun i => (i.draft.getD "").length)) = [longText.length] := rfl
  rw [h2, hlen]

/-- C3 (amended): only the calendar draft update truncates its input to the
first 2000 characters before persisting; the pipeline draft update persists
the input text unchanged, whatever its length. -/
theorem draft_truncation_amended
    (pitems : List PipelineItem) (citems : List CalendarItem)
    (pid cid text : String) (pnow cnow : Int)
    (hp : pitems.countP (fun i => i.id == pid) ≤ 1)
    (hc : citems.countP (fun i => i.id == cid) ≤ 1) :
    (∀ i ∈ citems, i.id = cid →
      { i with draft := some (text.take 2000), status := "Drafted",
               updated_at := some cnow }
        ∈ (update_twitter_draft citems cid text cnow).1)
    ∧ (∀ i ∈ pitems, i.id = pid →
      { i with draft := some text, status := "Drafted",
               updated_at := some pnow }
        ∈ (update_pipeline_draft pitems pid text pnow).1) :=
  ⟨update_twitter_draft_mem citems cid text cnow hc,
   update_pipeline_draft_mem pitems pid text pnow hp⟩

/-- Witness for C3 (amended) at a one-item calendar and pipeline store. -/
theorem draft_truncation_amended_witness :
    ([pEx].countP (fun i => i.id == "p1") ≤ 1)
    ∧ ([cW].countP (fun i => i.id == "c2") ≤ 1)
    ∧ ({ cW with draft := some (("hi").take 2000), status := "Drafted",
                 updated_at := some 3 })
        ∈ (update_twitter_draft [cW] "c2" "hi" 3).1 :=
  ⟨by decide, by decide,
   (draft_truncation_amended [pEx] [cW] "p1" "c2" "hi" 2 3
     (by decide) (by decide)).1 cW (List.mem_singleton.mpr rfl) rfl⟩

/-- C8: updating the draft of an existing pipeline or calendar item sets the
item's status to `"Drafted"` as a side effect, regardless of whether the
item previously had a draft. -/
theorem draft_update_sets_status
    (pitems : List PipelineItem) (citems : List CalendarItem)
    (pid cid ptext ctext : String) (pnow cnow : Int)
    (hp : pitems.countP (fun i => i.id == pid) ≤ 1)
    (hc : citems.countP (fun i => i.id == cid) ≤ 1) :
    (∀ i ∈ pitems, i.id = pid →
       ∃ j ∈ (update_pipeline_draft pitems pid ptext pnow).1,
         j = ({ i with draft := some ptext, status := "Drafted",
                       updated_at := some pnow }) ∧ j.status = "Drafted")
    ∧ (∀ i ∈ citems, i.id = cid →
       ∃ j ∈ (update_twitter_draft citems cid ctext cnow).1,
         j = ({ i with draft := some (ctext.take 2000), status := "Drafted",
                       updated_at := some cnow }) ∧ j.status = "Drafted") := by
  constructor
  · intro i hi hid
    exact ⟨_, update_pipeline_draft_mem pitems pid ptext pnow hp i hi hid,
           rfl, rfl⟩
  · intro i hi hid
    exact ⟨_, update_twitter_draft_mem citems cid ctext cnow hc i hi hid,
           rfl, rfl⟩

/-- Witness for C8: a pipeline item that already has a draft and a calendar
item with none both end up `"Drafted"`. -/
theorem draft_update_sets_status_witness :
    ([pEx].countP (fun i => i.id == "p1") ≤ 1)
    ∧ ([cW].countP (fun i => i.id == "c2") ≤ 1)
    ∧ ∃ j ∈ (update_pipeline_draft [pEx] "p1" "new text" 9).1,
        j = ({ pEx with draft := some "new text", status := "Drafted",
                        updated_at := some 9 }) ∧ j.status = "Drafted" :=
  ⟨by decide, by decide,
   (draft_update_sets_status [pEx] [cW] "p1" "c2" "new text" "tweet" 9 9
     (by decide) (by decide)).1 pEx (List.mem_singleton.mpr rfl) rfl⟩

/-- C9: each update operation given an id that matches no stored row returns
an empty dictionary and leaves the stored items unchanged. -/
theorem update_missing_id_noop
    (pitems : List PipelineItem) (citems : List CalendarItem)
    (pid status text : String) (now : Int)
    (hp : ∀ i ∈ pitems, i.id ≠ pid) (hc : ∀ i ∈ citems, i.id ≠ pid) :
    update_pipeline_status pitems pid status now = (pitems, PyVal.dict [])
    ∧ update_pipeline_draft pitems pid text now = (pitems, PyVal.dict [])
    ∧ update_twitter_draft citems pid text now = (citems, PyVal.dict []) := by
  have hfp : pitems.find? (fun i => i.id == pid) = none :=
    List.find?_eq_none.mpr (fun x hx => by simp [hp x hx])
  have hfc : citems.find? (fun i => i.id == pid) = none :=
    List.find?_eq_none.mpr (fun x hx => by simp [hc x hx])
  refine ⟨?_, ?_, ?_⟩
  · rw [update_pipeline_status, hfp]
  · rw [update_pipeline_draft, hfp]
  · rw [update_twitter_draft, hfc]

/-- Witness for C9: no item of the one-row stores carries the id `"zz"`,
and the status update returns the store unchanged with an empty dict. -/
theorem update_missing_id_noop_witness :
    (∀ i ∈ [pEx], i.id ≠ "zz") ∧ (∀ i ∈ [cW], i.id ≠ "zz")
    ∧ update_pipeline_status [pEx] "zz" "Approved" 4 = ([pEx], PyVal.dict []) :=
  ⟨by decide, by decide,
   (update_missing_id_noop [pEx] [cW] "zz" "Approved" "d" 4
     (by decide) (by decide)).1⟩

theorem calendar_items_true_eq (items : List CalendarItem) :
    get_twitter_calendar_items items (some true)
      = (insertionSortB schedAscNullsLast (items.filter draftNonEmptyB)).map
          calendar_to_notion_format := rfl

theorem calendar_items_false_eq (items : List CalendarItem) :
    get_twitter_calendar_items items (some false)
      = (insertionSortB schedAscNullsLast (items.filter draftNullOrEmptyB)).map
          calendar_to_notion_format := rfl

theorem mem_calendar_items_true (items : List CalendarItem) :
    ∀ d ∈ get_twitter_calendar_items items (some true),
      ∃ i, i ∈ items ∧ d = calendar_to_notion_format i
        ∧ draftNonEmptyB i = true := by
  intro d hd
  rw [calendar_items_true_eq] at hd
  obtain ⟨i, hsort, heq⟩ := List.mem_map.mp hd
  obtain ⟨hi, hpred⟩ := List.mem_filter.mp (mem_insertionSortB.mp hsort)
  exact ⟨i, hi, heq.symm, hpred⟩

theorem mem_calendar_items_false (items : List CalendarItem) :
    ∀ d ∈ get_twitter_calendar_items items (some false),
      ∃ i, i ∈ items ∧ d = calendar_to_notion_format i
        ∧ draftNullOrEmptyB i = true := by
  intro d hd
  rw [calendar_items_false_eq] at hd
  obtain ⟨i, hsort, heq⟩ := List.mem_map.mp hd
  obtain ⟨hi, hpred⟩ := List.mem_filter.mp (mem_insertionSortB.mp hsort)
  exact ⟨i, hi, heq.symm, hpred⟩

theorem fmt_mem_calendar_items_true (items : List CalendarItem)
    {i : CalendarItem} (hi : i ∈ items) (h : draftNonEmptyB i = true) :
    calendar_to_notion_format i ∈ get_twitter_calendar_items items (some true) := by
  rw [calendar_items_true_eq]
  exact List.mem_map_of_mem _
    (mem_insertionSortB.mpr (List.mem_filter.mpr ⟨hi, h⟩))

theorem fmt_mem_calendar_items_false (items : List CalendarItem)
    {i : CalendarItem} (hi : i ∈ items) (h : draftNullOrEmptyB i = true) :
    calendar_to_notion_format i ∈ get_twitter_calendar_items items (some false) := by
  rw [calendar_items_false_eq]
  exact List.mem_map_of_mem _
    (mem_insertionSortB.mpr (List.mem_filter.mpr ⟨hi, h⟩))

theorem draftNullOrEmptyB_iff (i : CalendarItem) :
    draftNullOrEmptyB i = true ↔ i.draft = none ∨ i.draft = some "" := by
  cases h : i.draft with
  | none => simp [draftNullOrEmptyB, h]
  | some s => simp [draftNullOrEmptyB, h]

theorem draftNonEmptyB_iff (i : CalendarItem) :
    draftNonEmptyB i = true ↔ ∃ s, i.draft = some s ∧ s ≠ "" := by
  cases h : i.draft with
  | none => simp [draftNonEmptyB, h]
  | some s => simp [draftNonEmptyB, h]

theorem draftNonEmptyB_not (i : CalendarItem) :
    draftNonEmptyB i = !draftNullOrEmptyB i := by
  cases h : i.draft with
  | none => simp [draftNonEmptyB, draftNullOrEmptyB, h]
  | some s => by_cases hs : s == "" <;>
      simp [draftNonEmptyB, draftNullOrEmptyB, h, hs]

theorem draftRichText_of_empty (o : Option String)
    (h : o = none ∨ o = some "") : draftRichText o = PyVal.list [] := by
  rcases h with h | h <;> subst h <;> simp [draftRichText]

theorem draftRichText_of_nonempty (s : String) (hs : s ≠ "") :
    draftRichText (some s)
      = PyVal.list [PyVal.dict [("text", PyVal.dict [("content", PyVal.str s)])]] := by
  simp [draftRichText, hs]

theorem docDraftRich_fmt (i : CalendarItem) :
    docDraftRich (calendar_to_notion_format i) = draftRichText i.draft := rfl

/-- Counterexample to C4 as stated: a calendar item whose draft is a single
space — non-null but empty after trimming whitespace — is excluded from the
`has_draft=False` listing and returned by the `has_draft=True` listing: the
filter compares against the exact empty string and never trims. -/
theorem calendar_draft_filter_counterexample :
    cEx.draft = some " "
    ∧ (" ").toList.all Char.isWhitespace = true
    ∧ get_twitter_calendar_items [cEx] (some false) = []
    ∧ get_twitter_calendar_items [cEx] (some true)
        = [calendar_to_notion_format cEx] :=
  ⟨rfl, by decide, rfl, rfl⟩

/-- C4 (amended): `has_draft=False` returns exactly the items whose draft
is null or exactly the empty string (no whitespace trimming), and
`has_draft=True` returns exactly the complement; every stored item appears
in exactly one of the two filtered listings. -/
theorem calendar_draft_filter_amended (items : List CalendarItem) :
    (∀ d ∈ get_twitter_calendar_items items (some false),
       ∃ i, i ∈ items ∧ d = calendar_to_notion_format i
         ∧ (i.draft = none ∨ i.draft = some ""))
    ∧ (∀ d ∈ get_twitter_calendar_items items (some true),
       ∃ i, i ∈ items ∧ d = calendar_to_notion_format i
         ∧ ∃ s, i.draft = some s ∧ s ≠ "")
    ∧ ∀ i ∈ items,
        (calendar_to_notion_format i ∈ get_twitter_calendar_items items (some false)
          ∧ calendar_to_notion_format i ∉ get_twitter_calendar_items items (some true))
        ∨ (calendar_to_notion_format i ∈ get_twitter_calendar_items items (some true)
          ∧ calendar_to_notion_format i ∉ get_twitter_calendar_items items (some false)) := by
  refine ⟨?_, ?_, ?_⟩
  · intro d hd
    obtain ⟨i, hi, heq, hpred⟩ := mem_calendar_items_false items d hd
    exact ⟨i, hi, heq, (draftNullOrEmptyB_iff i).mp hpred⟩
  · intro d hd
    obtain ⟨i, hi, heq, hpred⟩ := mem_calendar_items_true items d hd
    exact ⟨i, hi, heq, (draftNonEmptyB_iff i).mp hpred⟩
  · intro i hi
    by_cases hempty : draftNullOrEmptyB i = true
    · left
      refine ⟨fmt_mem_calendar_items_false items hi hempty, ?_⟩
      intro hmem
      obtain ⟨j, _, heq, hjpred⟩ := mem_calendar_items_true items _ hmem
      have hdr : draftRichText i.draft = draftRichText j.draft := by
        have := congrArg docDraftRich heq
        rwa [docDraftRich_fmt, docDraftRich_fmt] at this
      obtain ⟨s, hjs, hs⟩ := (draftNonEmptyB_iff j).mp hjpred
      rw [draftRichText_of_empty i.draft ((draftNullOrEmptyB_iff i).mp hempty),
          hjs, draftRichText_of_nonempty s hs] at hdr
      simp at hdr
    · right
      have hne : draftNonEmptyB i = true := by
        rw [draftNonEmptyB_not]
        simp [Bool.not_eq_true] at hempty
        simp [hempty]
      refine ⟨fmt_mem_calendar_items_true items hi hne, ?_⟩
      intro hmem
      obtain ⟨j, _, heq, hjpred⟩ := mem_calendar_items_false items _ hmem
      have hdr : draftRichText i.draft = draftRichText j.draft := by
        have := congrArg docDraftRich heq
        rwa [docDraftRich_fmt, docDraftRich_fmt] at this
      obtain ⟨s, his, hs⟩ := (draftNonEmptyB_iff i).mp hne
      rw [his, draftRichText_of_nonempty s hs,
          draftRichText_of_empty j.draft ((draftNullOrEmptyB_iff j).mp hjpred)] at hdr
      simp at hdr

/-- Witness for C10 on a one-post database: the single leaderboard row is
the translation of the stored post, whose short content is unchanged. -/
theorem combined_row_content_preview_witness :
    combinedRowL pA ∈ get_combined_top_posts ⟨[pA], []⟩ 1
    ∧ ((∃ p, p ∈ (⟨[pA], []⟩ : Database).linkedin_posts
         ∧ ((∃ s, p.content = some s ∧ 100 < s.length
               ∧ (combinedRowL pA).content = some (s.take 100 ++ "..."))
            ∨ ((∀ s, p.content = some s → s.length ≤ 100)
               ∧ (combinedRowL pA).content = p.content)))
      ∨ (∃ p, p ∈ (⟨[pA], []⟩ : Database).twitter_posts
         ∧ ((∃ s, p.content = some s ∧ 100 < s.length
               ∧ (combinedRowL pA).content = some (s.take 100 ++ "..."))
            ∨ ((∀ s, p.content = some s → s.length ≤ 100)
               ∧ (combinedRowL pA).content = p.content)))) :=
  ⟨by decide,
   combined_row_content_preview ⟨[pA], []⟩ 1 (combinedRowL pA) (by decide)⟩
